import Mathlib

/-!
Verification of the Social-Competitor-Analyser backend.

Shallow embedding of the quota manager, rate limiter, YouTube fetch/merge
pipeline, ranking engine and batch API view, with theorems settling the
spec claims about them.  Each definition mirrors a function (or an inline
code block) of the Python source, referenced by file and line in its
doc comment.
-/

set_option maxHeartbeats 1000000
set_option maxRecDepth 8000

/-- Embeds `QuotaManager.can_make_request` (quota_manager.py, lines 86-91). -/
def QuotaManager.can_make_request (daily_limit current_used estimated_units : Int) :
    Bool :=
  if current_used + estimated_units > daily_limit then false else true

/-- Rate limiter configuration (rate_limiter.py, lines 15-17). -/
structure RateLimiter where
  max_per_second : Nat
  max_per_minute : Nat
deriving DecidableEq, Repr

/-- The two cached window counters read by `can_make_request`
(`ratelimit:second:...` and `ratelimit:minute:...`). -/
structure RateWindow where
  second_count : Nat
  minute_count : Nat
deriving DecidableEq, Repr

/-- Embeds `RateLimiter.can_make_request` (rate_limiter.py, lines 27-45). -/
def RateLimiter.can_make_request (rl : RateLimiter) (w : RateWindow) : Bool :=
  if w.second_count ≥ rl.max_per_second then false
  else if w.minute_count ≥ rl.max_per_minute then false
  else true

/-- Embeds `RateLimiter.wait_if_needed` (rate_limiter.py, lines 57-64).
`w0` is the window state at the first check and `w1` the state after the
first one-second sleep.  The function returns the number of `time.sleep(1)`
calls performed; note that it always returns normally (it never raises),
and after the second failed check it sleeps once more and returns. -/
def RateLimiter.wait_if_needed (rl : RateLimiter) (w0 w1 : RateWindow) : Nat :=
  if rl.can_make_request w0 then 0
  else if rl.can_make_request w1 then 1
  else 2

/-- Outcome of `CachedYouTubeService._make_api_call` up to the dispatch of
the outbound call: either the quota admission check raised `ValueError`,
or the call proceeded (after the recorded number of rate-limit sleeps). -/
inductive ApiCallResult where
  | quota_error
  | proceeded (sleeps : Nat)
deriving DecidableEq, Repr

/-- Embeds the admission portion of `CachedYouTubeService._make_api_call`
(cached_youtube_service.py, lines 64-78): check quota, raise on denial,
then `rate_limiter.wait_if_needed()` and unconditionally dispatch `func()`.
Nothing between `wait_if_needed` and `func()` can stop the call. -/
def CachedYouTubeService.make_api_call (daily_limit current_used quota_cost : Int)
    (rl : RateLimiter) (w0 w1 : RateWindow) : ApiCallResult :=
  if QuotaManager.can_make_request daily_limit current_used quota_cost = false then
    ApiCallResult.quota_error
  else
    ApiCallResult.proceeded (rl.wait_if_needed w0 w1)

/-- A UTC `datetime` value as used by `consume_quota` (year/month/day and
time of day; microseconds are zeroed by the code before any use). -/
structure PyDateTime where
  year : Int
  month : Nat
  day : Nat
  hour : Nat
  minute : Nat
  second : Nat
deriving DecidableEq, Repr

/-- Gregorian leap-year rule used by Python's `datetime`. -/
def isLeapYear (y : Int) : Bool :=
  y % 4 == 0 && (y % 100 != 0 || y % 400 == 0)

/-- Number of days in a month, as validated by `datetime.replace`. -/
def daysInMonth (y : Int) (m : Nat) : Nat :=
  match m with
  | 2 => if isLeapYear y then 29 else 28
  | 4 | 6 | 9 | 11 => 30
  | _ => 31

/-- Days in the months strictly before month `m` of year `y`. -/
def daysBeforeMonth (y : Int) (m : Nat) : Nat :=
  (List.range (m - 1)).foldl (fun acc i => acc + daysInMonth y (i + 1)) 0

/-- Number of leap years in `1..y-1` (proleptic Gregorian). -/
def leapsBefore (y : Int) : Int :=
  (y - 1) / 4 - (y - 1) / 100 + (y - 1) / 400

/-- Proleptic-Gregorian day ordinal of a date (Python `datetime.toordinal`). -/
def toOrdinal (y : Int) (m d : Nat) : Int :=
  365 * (y - 1) + leapsBefore y + (daysBeforeMonth y m : Int) + (d : Int)

/-- Seconds-since-epoch linearisation of a `datetime`; `datetime` comparison
and subtraction on valid dates agree with comparison and subtraction of this
value. -/
def PyDateTime.toSeconds (dt : PyDateTime) : Int :=
  toOrdinal dt.year dt.month dt.day * 86400
    + (dt.hour : Int) * 3600 + (dt.minute : Int) * 60 + (dt.second : Int)

/-- Embeds Python's `datetime.replace(day=new_day)`: it validates the new
day against the month length and raises `ValueError` when it is out of
range. -/
def PyDateTime.replace_day (dt : PyDateTime) (new_day : Nat) :
    Except String PyDateTime :=
  if 1 ≤ new_day ∧ new_day ≤ daysInMonth dt.year dt.month then
    Except.ok { dt with day := new_day }
  else
    Except.error "day is out of range for month"

/-- Embeds the expiry computation inside `QuotaManager.consume_quota`
(quota_manager.py, lines 63-73): take `now`, build `tomorrow_utc` by
replacing the time with 08:00:00, advance it by one day via
`replace(day=tomorrow_utc.day + 1)` when it is not in the future, and
return `int((tomorrow_utc - now).total_seconds()) + 3600` — the cache
timeout with its one-hour grace buffer.  `Except.error` models the
`ValueError` that `datetime.replace` raises. -/
def QuotaManager.expiry_timeout (now : PyDateTime) : Except String Int :=
  let tomorrow_utc : PyDateTime := { now with hour := 8, minute := 0, second := 0 }
  match (if tomorrow_utc.toSeconds ≤ now.toSeconds then
           tomorrow_utc.replace_day (tomorrow_utc.day + 1)
         else Except.ok tomorrow_utc) with
  | Except.error e => Except.error e
  | Except.ok t => Except.ok (t.toSeconds - now.toSeconds + 3600)

/-- Embeds `QuotaManager.consume_quota` (backend/api/utils/quota_manager.py,
lines 50-84) restricted to the daily counter.  `current_used` is the cached
value (`cache.get(key, 0)`).  On the over-limit path the function returns
False without touching the store.  On the under-limit path it first runs the
expiry computation of lines 63-73 (`QuotaManager.expiry_timeout` for the
current UTC time `now`); the `ValueError` that `datetime.replace` raises
there propagates out of `consume_quota` before `cache.set` runs, so a
raising call also leaves the stored counter unchanged — `Except.error`
models that raise.  Otherwise `cache.set(key, new_used, ...)` stores the
incremented counter and the call returns True.  The hourly side counter and
logging do not touch the daily counter and are omitted. -/
def QuotaManager.consume_quota (daily_limit current_used units : Int)
    (now : PyDateTime) : Except String (Bool × Int) :=
  let new_used := current_used + units
  if new_used > daily_limit then Except.ok (false, current_used)
  else
    match QuotaManager.expiry_timeout now with
    | Except.error e => Except.error e
    | Except.ok _ => Except.ok (true, new_used)

/-- Runs a sequence of `consume_quota` calls (each with its cost and the
UTC time at which it happens) against a fresh budget (`cache.get(key, 0)`
returns 0 initially), yielding the final stored `dailyUsed` counter.  A
refused call and a raising call both leave the stored counter unchanged. -/
def QuotaManager.run_consume (daily_limit : Int)
    (calls : List (Int × PyDateTime)) : Int :=
  calls.foldl
    (fun used c =>
      match QuotaManager.consume_quota daily_limit used c.1 c.2 with
      | Except.ok r => r.2
      | Except.error _ => used) 0

/-- A video record in the fetch working set.  `video_id` and `is_live` are
the fields the merge logic reads or writes; `tag` abstracts the rest of the
Python dict so that distinct records with the same id can be told apart. -/
structure VideoRec where
  video_id : String
  is_live : Bool
  tag : Nat
deriving DecidableEq, Repr

/-- Membership test `key in dict` for the `all_videos_dict` working set,
modelled as an insertion-ordered association list. -/
def dictContains (d : List (String × VideoRec)) (k : String) : Bool :=
  d.any fun p => decide (p.1 = k)

/-- Python dict assignment `d[k] = v`: replaces the value of an existing
key in place, otherwise appends the new binding (insertion order). -/
def dictSet (d : List (String × VideoRec)) (k : String) (v : VideoRec) :
    List (String × VideoRec) :=
  if dictContains d k then d.map (fun p => if p.1 = k then (k, v) else p)
  else d ++ [(k, v)]

/-- Python dict lookup `d.get(k)`. -/
def dictGet (d : List (String × VideoRec)) (k : String) : Option VideoRec :=
  match d with
  | [] => none
  | p :: rest => if p.1 = k then some p.2 else dictGet rest k

/-- Embeds the live-broadcast seeding loop of
`YouTubeService.fetch_channel_videos` (youtube_service.py, lines 694-700):
each probe hit is force-flagged `is_live = True` and assigned into
`all_videos_dict`. -/
def add_live_broadcasts (d : List (String × VideoRec))
    (live_broadcast_details : List VideoRec) : List (String × VideoRec) :=
  live_broadcast_details.foldl
    (fun d v => dictSet d v.video_id { v with is_live := true }) d

/-- Embeds the popularity-search merge loop (youtube_service.py,
lines 713-714): `all_videos_dict[video['video_id']] = video` for every
search result — an unconditional assignment. -/
def add_search_videos (d : List (String × VideoRec))
    (search_videos : List VideoRec) : List (String × VideoRec) :=
  search_videos.foldl (fun d v => dictSet d v.video_id v) d

/-- Embeds the playlist merge loop (youtube_service.py, lines 753-756):
a playlist video is assigned only when its id is not already present. -/
def add_playlist_videos (d : List (String × VideoRec))
    (playlist_videos : List VideoRec) : List (String × VideoRec) :=
  playlist_videos.foldl
    (fun d v => if dictContains d v.video_id then d else dictSet d v.video_id v) d

/-- The working set built by `fetch_channel_videos` in merge order:
live-probe seeds, then popularity-search results, then playlist results. -/
def build_working_set (live search playlist : List VideoRec) :
    List (String × VideoRec) :=
  add_playlist_videos (add_search_videos (add_live_broadcasts [] live) search) playlist

/-- A Python value that may sit in the `live_viewers` / `view_count` slots
of a video dict: `None`, an `int`, or a `str`. -/
inductive PyVal where
  | none
  | int (n : Int)
  | str (s : String)
deriving DecidableEq, Repr

/-- Python `int()` on a digit string (also reused by the duration parser
for `int(match.group(i))`). -/
def digitsToNat (ds : List Char) : Nat :=
  ds.foldl (fun acc c => acc * 10 + (c.toNat - 48)) 0

/-- Python `str.isdigit`: nonempty and every character a digit. -/
def pyIsDigit (s : String) : Bool :=
  !s.data.isEmpty && s.data.all Char.isDigit

/-- The numeric coercion used by `get_sort_key` in
`YouTubeService.fetch_channel_videos` (youtube_service.py, lines 891-912)
for both `live_viewers` and `view_count`: `None` maps to 0, a string maps
to its value when `isdigit()` and to 0 otherwise, an int is taken as is. -/
def pyCountToInt (v : PyVal) : Int :=
  match v with
  | PyVal.none => 0
  | PyVal.str s => if pyIsDigit s then (digitsToNat s.data : Int) else 0
  | PyVal.int n => n

/-- A live-video candidate as seen by the live-selection code. -/
structure LiveVideo where
  live_viewers : PyVal
  view_count : PyVal
  tag : Nat
deriving DecidableEq, Repr

/-- Embeds `get_sort_key` (youtube_service.py, lines 891-912): the tuple
`(viewers_int, views_int)`. -/
def get_sort_key (v : LiveVideo) : Int × Int :=
  (pyCountToInt v.live_viewers, pyCountToInt v.view_count)

/-- Python tuple comparison `p <= q` on integer pairs (lexicographic). -/
def lexLe (p q : Int × Int) : Prop :=
  p.1 < q.1 ∨ (p.1 = q.1 ∧ p.2 ≤ q.2)

instance : DecidableRel lexLe :=
  fun p q => inferInstanceAs (Decidable (p.1 < q.1 ∨ (p.1 = q.1 ∧ p.2 ≤ q.2)))

/-- The sort relation of `sorted(live_videos, key=get_sort_key,
reverse=True)`: `a` may precede `b` iff `b`'s key is lexicographically at
most `a`'s.  `List.insertionSort` with this relation is a stable
descending sort, which is exactly Python's `sorted(..., reverse=True)`. -/
def liveGe (a b : LiveVideo) : Prop :=
  lexLe (get_sort_key b) (get_sort_key a)

instance : DecidableRel liveGe :=
  fun a b => inferInstanceAs (Decidable (lexLe (get_sort_key b) (get_sort_key a)))

/-- Embeds the live-video pruning in `fetch_channel_videos`
(youtube_service.py, lines 886-925): sort candidates by `get_sort_key`
descending and keep only the first entry when more than one is live.  The
result is the `live_videos` list of the fetch result. -/
def selectTopLive (live_videos : List LiveVideo) : List LiveVideo :=
  match List.insertionSort liveGe live_videos with
  | [] => []
  | top :: _ => [top]

/-- A video item as seen in the final ranking step: its integer view count
and the Shorts classification, with `tag` abstracting the other fields. -/
structure RankedVideo where
  view_count : Int
  is_short : Bool
  tag : Nat
deriving DecidableEq, Repr

/-- The sort relation of `sorted(..., key=lambda x: x['view_count'],
reverse=True)`: stable descending by view count. -/
def viewsGe (a b : RankedVideo) : Prop :=
  b.view_count ≤ a.view_count

instance : DecidableRel viewsGe :=
  fun a b => inferInstanceAs (Decidable (b.view_count ≤ a.view_count))

/-- Embeds `YouTubeService.rank_videos_by_views` (youtube_service.py,
lines 516-518) with its default `reverse=True`. -/
def YouTubeService.rank_videos_by_views (videos : List RankedVideo) :
    List RankedVideo :=
  List.insertionSort viewsGe videos

/-- Embeds the assembly of the `videos` and `shorts` lists in
`fetch_channel_videos` (youtube_service.py, lines 721-770 and 967-968).
`initial` is the dict-insertion-order value list of `all_videos_dict`
after the live-probe seeding and the (optional) search merge; lines
721-722 partition it unsorted.  The playlist fallback runs only when
`search_api_failed or need_more` holds, and only when it reaches lines
766-770 (`playlist_outcome = some merged_values`, the dict values after
the playlist merge) are the two lists re-derived sorted by view count
descending; when the fallback is skipped, raises (caught at line 771),
finds no playlist id, or gets no video ids (`playlist_outcome = none`),
the unsorted partitions survive.  Lines 967-968 then slice the top
`max_videos` / `max_shorts`. -/
def fetch_rank_assembly (initial : List RankedVideo)
    (playlist_outcome : Option (List RankedVideo))
    (max_videos max_shorts : Nat) : List RankedVideo × List RankedVideo :=
  let regular_videos := initial.filter fun v => !v.is_short
  let shorts := initial.filter fun v => v.is_short
  let search_api_failed := initial.isEmpty
  let need_more := decide (regular_videos.length < max_videos)
      || decide (shorts.length < max_shorts)
  if search_api_failed || need_more then
    match playlist_outcome with
    | some merged_values =>
      ((List.insertionSort viewsGe
          (merged_values.filter fun v => !v.is_short)).take max_videos,
       (List.insertionSort viewsGe
          (merged_values.filter fun v => v.is_short)).take max_shorts)
    | none => (regular_videos.take max_videos, shorts.take max_shorts)
  else (regular_videos.take max_videos, shorts.take max_shorts)

/-- Longest digit run at the head of the character list, with the rest. -/
def takeDigits : List Char → List Char × List Char
  | [] => ([], [])
  | c :: cs =>
    if c.isDigit then
      let (ds, rest) := takeDigits cs
      (c :: ds, rest)
    else ([], c :: cs)

/-- One optional group `(?:(\d+)U)?` of the duration regex, matched at the
head of `cs`: it succeeds iff a nonempty digit run is immediately followed
by the unit character `u` (backtracking inside `\d+` can never help,
because a shorter digit run is still followed by a digit, not by `u`).
On failure the position is unchanged. -/
def matchNumGroup (u : Char) (cs : List Char) : Option Nat × List Char :=
  match takeDigits cs with
  | ([], _) => (none, cs)
  | (ds, rest) =>
    match rest with
    | r :: rs => if r = u then (some (digitsToNat ds), rs) else (none, cs)
    | [] => (none, cs)

/-- Embeds `YouTubeService._is_short_video` (youtube_service.py,
lines 495-514): empty durations are not Shorts; otherwise
`re.match(r'PT(?:(\d+)H)?(?:(\d+)M)?(?:(\d+)S)?', duration)` requires the
string to start with `PT` (trailing garbage is ignored, and a string that
does not start with `PT` fails to match), missing groups count as 0, and
the video is a Short iff the total seconds are at most 60. -/
def YouTubeService.is_short_video (duration : String) : Bool :=
  if duration = "" then false
  else
    match duration.data with
    | c1 :: c2 :: rest =>
      if c1 = 'P' ∧ c2 = 'T' then
        let g1 := matchNumGroup 'H' rest
        let g2 := matchNumGroup 'M' g1.2
        let g3 := matchNumGroup 'S' g2.2
        decide (g1.1.getD 0 * 3600 + g2.1.getD 0 * 60 + g3.1.getD 0 ≤ 60)
      else false
    | _ => false

/-- Renders one optional duration component (digit run plus unit letter). -/
def renderGroup (o : Option (List Char)) (u : Char) : List Char :=
  match o with
  | none => []
  | some ds => ds ++ [u]

/-- A well-formed `PT…H…M…S` ISO-8601 duration string built from optional
integer hour/minute/second components. -/
def mkDuration (H M S : Option (List Char)) : String :=
  { data := 'P' :: 'T' :: (renderGroup H 'H' ++ renderGroup M 'M' ++ renderGroup S 'S') }

/-- Value of an optional duration component (missing counts as 0). -/
def groupVal (o : Option (List Char)) : Nat :=
  match o with
  | none => 0
  | some ds => digitsToNat ds

/-- A component is either absent or a nonempty run of digit characters. -/
def goodDigits (o : Option (List Char)) : Prop :=
  ∀ ds, o = some ds → ds ≠ [] ∧ ∀ c ∈ ds, c.isDigit

/-- Whether a string starts with the characters `PT` (the shape the
duration regex requires before any group can be tried). -/
def startsWithPT (s : String) : Bool :=
  match s.data with
  | c1 :: c2 :: _ => decide (c1 = 'P' ∧ c2 = 'T')
  | _ => false

/-- Hours elapsed between a publish timestamp and `now`, both in seconds:
`(now - published_datetime).total_seconds() / 3600`
(youtube_service.py, line 431).  Exact rational arithmetic stands in for
Python floats. -/
def hours_since_publish (now published : ℚ) : ℚ :=
  (now - published) / 3600

/-- Embeds the trending computation of `YouTubeService.get_video_statistics`
(youtube_service.py, lines 437-445), identically repeated in the recompute
loop of `fetch_channel_videos` (lines 796-808): returns
`(trending_score, is_trending)`. -/
def YouTubeService.trending_fields (view_count : Int) (hours : ℚ) : ℚ × Bool :=
  if hours ≤ 3 ∧ 0 ≤ hours then
    (if hours < 1 / 10 then (view_count : ℚ) * 10
     else if 0 < hours then (view_count : ℚ) / hours
     else (view_count : ℚ),
     true)
  else (0, false)

/-- The payload returned by one `fetch_channel_videos` call, as far as the
batch view inspects it: the optional `error` entry of the result dict, and
an abstract tag for the remaining fields. -/
structure FetchPayload where
  err : Option String
  tag : Nat
deriving DecidableEq, Repr

/-- One entry of the batch response's `errors` list (views.py,
lines 68-84). -/
structure ErrorEntry where
  channel_url : String
  error : String
  quota_exceeded : Bool
deriving DecidableEq, Repr

/-- The response of `YouTubeAnalyzerAPIView.post`: either a 400
bad-request, or the 200 payload with its results, errors and counts. -/
inductive PostResponse where
  | bad_request (msg : String)
  | ok (results : List FetchPayload) (errors : List ErrorEntry)
      (total_channels_processed : Nat) (total_channels_failed : Nat)
deriving DecidableEq, Repr

/-- Python `'quota' in s.lower()`: substring containment after
lower-casing (expressed on the character lists so that it evaluates by
reduction). -/
def containsQuota (s : String) : Bool :=
  decide ("quota".data <:+: s.data.map Char.toLower)

/-- Python `str.strip()` with no argument: drop leading and trailing
whitespace. -/
def pyStrip (s : String) : String :=
  { data := ((s.data.dropWhile Char.isWhitespace).reverse.dropWhile Char.isWhitespace).reverse }

/-- Embeds one iteration of the per-channel loop of
`YouTubeAnalyzerAPIView.post` (views.py, lines 53-84): a fetch that
returns a dict with a truthy quota `error` entry, or raises, produces an
error entry; every other successful fetch is appended to `results`. -/
def processChannel (fetch : String → Except String FetchPayload)
    (acc : List FetchPayload × List ErrorEntry) (channel_url : String) :
    List FetchPayload × List ErrorEntry :=
  match fetch (pyStrip channel_url) with
  | Except.ok channel_data =>
    match channel_data.err with
    | some e =>
      if e ≠ "" ∧ containsQuota e then
        (acc.1, acc.2 ++ [{ channel_url := channel_url, error := e, quota_exceeded := true }])
      else (acc.1 ++ [channel_data], acc.2)
    | none => (acc.1 ++ [channel_data], acc.2)
  | Except.error e =>
    (acc.1, acc.2 ++ [{ channel_url := channel_url, error := e,
                        quota_exceeded := containsQuota e }])

/-- Embeds `YouTubeAnalyzerAPIView.post` (views.py, lines 17-110).  The
service's per-channel behaviour is the outside parameter `fetch`
(`.strip()` is modelled by `pyStrip`); `raise`
inside a channel iteration is the `Except.error` case. -/
def YouTubeAnalyzerAPIView.post (fetch : String → Except String FetchPayload)
    (channel_urls : List String) : PostResponse :=
  if channel_urls.isEmpty then PostResponse.bad_request "No channel URLs provided"
  else if channel_urls.length > 10 then
    PostResponse.bad_request "Maximum 10 channels allowed per request"
  else
    let (results, errors) := channel_urls.foldl (processChannel fetch) ([], [])
    PostResponse.ok results errors results.length errors.length

/-- The fetch result recorded for a reference whose fetch succeeds
(`none` for a failing reference). -/
def resultOf (fetch : String → Except String FetchPayload) (u : String) :
    Option FetchPayload :=
  match fetch (pyStrip u) with
  | Except.ok d => some d
  | Except.error _ => none

/-- The error entry recorded for a reference whose fetch raises
(`none` for a successful reference). -/
def errEntryOf (fetch : String → Except String FetchPayload) (u : String) :
    Option ErrorEntry :=
  match fetch (pyStrip u) with
  | Except.ok _ => none
  | Except.error e =>
    some { channel_url := u, error := e, quota_exceeded := containsQuota e }

/-- Concrete live candidate with `live_viewers = 100`, `view_count = 5000`. -/
def liveExampleA : LiveVideo := { live_viewers := PyVal.int 100, view_count := PyVal.int 5000, tag := 1 }

/-- Concrete live candidate with `live_viewers = None`, `view_count = 9000`. -/
def liveExampleB : LiveVideo := { live_viewers := PyVal.none, view_count := PyVal.int 9000, tag := 2 }

/-- A live-probe record for video id `a` (as returned by the probe, before
the merge forces `is_live`). -/
def liveSeedRec : VideoRec := { video_id := "a", is_live := false, tag := 1 }

/-- A distinct search-path record carrying the same video id `a`. -/
def searchRec : VideoRec := { video_id := "a", is_live := false, tag := 2 }

/-- A rate limiter configured as in the settings (5/second, 100/minute). -/
def rateLimiterEx : RateLimiter := { max_per_second := 5, max_per_minute := 100 }

/-- A window whose per-second counter is saturated. -/
def saturatedWindow : RateWindow := { second_count := 5, minute_count := 0 }

/-- A batch fetch behaviour: reference `chB` fails to resolve, the others
succeed with an error-free payload. -/
def fetchExample (u : String) : Except String FetchPayload :=
  if u = "chB" then Except.error "Could not extract channel ID from URL: chB"
  else Except.ok { err := none, tag := 7 }

theorem lexLe_refl (p : Int × Int) : lexLe p p :=
  Or.inr ⟨rfl, le_refl _⟩

theorem lexLe_trans {p q r : Int × Int} (h1 : lexLe p q) (h2 : lexLe q r) :
    lexLe p r := by
  rcases h1 with h1 | ⟨e1, l1⟩ <;> rcases h2 with h2 | ⟨e2, l2⟩
  · exact Or.inl (lt_trans h1 h2)
  · exact Or.inl (e2 ▸ h1)
  · exact Or.inl (e1 ▸ h2)
  · exact Or.inr ⟨e1.trans e2, le_trans l1 l2⟩

theorem lexLe_total (p q : Int × Int) : lexLe p q ∨ lexLe q p := by
  rcases lt_trichotomy p.1 q.1 with h | h | h
  · exact Or.inl (Or.inl h)
  · rcases le_total p.2 q.2 with h2 | h2
    · exact Or.inl (Or.inr ⟨h, h2⟩)
    · exact Or.inr (Or.inr ⟨h.symm, h2⟩)
  · exact Or.inr (Or.inl h)

theorem liveGe_total : ∀ a b : LiveVideo, liveGe a b ∨ liveGe b a :=
  fun a b => lexLe_total (get_sort_key b) (get_sort_key a)

theorem liveGe_trans : ∀ a b c : LiveVideo, liveGe a b → liveGe b c → liveGe a c :=
  fun _ _ _ h1 h2 => lexLe_trans h2 h1

theorem viewsGe_total : ∀ a b : RankedVideo, viewsGe a b ∨ viewsGe b a :=
  fun a b => le_total b.view_count a.view_count

theorem viewsGe_trans : ∀ a b c : RankedVideo, viewsGe a b → viewsGe b c → viewsGe a c :=
  fun _ _ _ h1 h2 => le_trans h2 h1

theorem filter_orderedInsert_pos {α : Type} (r : α → α → Prop) [DecidableRel r]
    (p : α → Bool) (a : α) (ha : p a = true)
    (hcmp : ∀ b, ¬r a b → p b = false) :
    ∀ l : List α, (List.orderedInsert r a l).filter p = a :: l.filter p := by
  intro l
  induction l with
  | nil => simp [List.orderedInsert, ha]
  | cons b bs ih =>
    by_cases h : r a b
    · simp [List.orderedInsert, h, ha]
    · simp [List.orderedInsert, h, hcmp b h, ih]

theorem filter_orderedInsert_neg {α : Type} (r : α → α → Prop) [DecidableRel r]
    (p : α → Bool) (a : α) (ha : p a = false) :
    ∀ l : List α, (List.orderedInsert r a l).filter p = l.filter p := by
  intro l
  induction l with
  | nil => simp [List.orderedInsert, ha]
  | cons b bs ih =>
    by_cases h : r a b
    · simp [List.orderedInsert, h, ha]
    · by_cases hb : p b <;> simp [List.orderedInsert, h, hb, ih]

theorem filter_insertionSort {α : Type} (r : α → α → Prop) [DecidableRel r]
    (p : α → Bool) (hcm : ∀ a b, p a = true → ¬r a b → p b = false) :
    ∀ l : List α, (List.insertionSort r l).filter p = l.filter p := by
  intro l
  induction l with
  | nil => rfl
  | cons a l ih =>
    by_cases ha : p a
    · rw [List.insertionSort, filter_orderedInsert_pos r p a ha (fun b hb => hcm a b ha hb),
        ih]
      simp [ha]
    · rw [List.insertionSort,
        filter_orderedInsert_neg r p a (Bool.not_eq_true _ ▸ ha), ih]
      simp [ha]

/-- C1 counterexample: at 2025-01-31 09:00:00 UTC a call with cost 4
against a fresh budget of limit 10 is under the limit, yet `consume_quota`
raises `ValueError` from its expiry computation instead of returning True —
so "a call succeeds iff dailyUsed + cost ≤ L" is false of the program. -/
theorem c1_counterexample :
    (0 : Int) + 4 ≤ 10
    ∧ QuotaManager.consume_quota 10 0 4
        { year := 2025, month := 1, day := 31, hour := 9, minute := 0, second := 0 }
      = Except.error "day is out of range for month" :=
  ⟨by norm_num, rfl⟩

/-- C1 amended: a `consume_quota(cost)` call returns False iff
`dailyUsed + cost` exceeds the limit, and then leaves the stored counter
unchanged; an under-limit call returns True and stores `dailyUsed + cost`
when the expiry computation for the current time succeeds, and propagates
the expiry computation's `ValueError` (without storing) when it fails;
in every case the stored `dailyUsed` never exceeds the limit after any
sequence of calls with non-negative costs against a fresh budget. -/
theorem c1_consume_quota_correct (daily_limit current_used units : Int)
    (now : PyDateTime) (calls : List (Int × PyDateTime)) :
    (QuotaManager.consume_quota daily_limit current_used units now
        = Except.ok (false, current_used) ↔ current_used + units > daily_limit)
    ∧ (current_used + units ≤ daily_limit →
        ∀ t, QuotaManager.expiry_timeout now = Except.ok t →
          QuotaManager.consume_quota daily_limit current_used units now
            = Except.ok (true, current_used + units))
    ∧ (current_used + units ≤ daily_limit →
        ∀ e, QuotaManager.expiry_timeout now = Except.error e →
          QuotaManager.consume_quota daily_limit current_used units now
            = Except.error e)
    ∧ (0 ≤ daily_limit → (∀ c ∈ calls, 0 ≤ c.1)
        → QuotaManager.run_consume daily_limit calls ≤ daily_limit) := by
  refine ⟨?_, ?_, ?_, ?_⟩
  · by_cases h : current_used + units > daily_limit
    · simp [QuotaManager.consume_quota, h]
    · cases he : QuotaManager.expiry_timeout now with
      | ok t => simp [QuotaManager.consume_quota, h, he]
      | error e => simp [QuotaManager.consume_quota, h, he]
  · intro hle t ht
    have h : ¬current_used + units > daily_limit := by omega
    simp [QuotaManager.consume_quota, h, ht]
  · intro hle e he
    have h : ¬current_used + units > daily_limit := by omega
    simp [QuotaManager.consume_quota, h, he]
  · intro hL _
    have key : ∀ (cs : List (Int × PyDateTime)) (used : Int), used ≤ daily_limit →
        cs.foldl
          (fun u c =>
            match QuotaManager.consume_quota daily_limit u c.1 c.2 with
            | Except.ok r => r.2
            | Except.error _ => u) used
          ≤ daily_limit := by
      intro cs
      induction cs with
      | nil => intro used h; simpa using h
      | cons c rest ih =>
        intro used h
        rw [List.foldl_cons]
        refine ih _ ?_
        by_cases hgt : used + c.1 > daily_limit
        · simpa [QuotaManager.consume_quota, hgt] using h
        · cases he : QuotaManager.expiry_timeout c.2 with
          | ok t =>
            simp only [QuotaManager.consume_quota, if_neg hgt, he]
            omega
          | error e =>
            simpa [QuotaManager.consume_quota, hgt, he] using h
    exact key calls 0 hL

/-- C1 witness: at 2025-01-30 09:00:00 UTC (where the expiry computation
succeeds) a cost-4 call on a fresh limit-10 budget is stored as 4, and a
sequence of calls [4, 5, 3] keeps the counter at most 10. -/
theorem c1_witness :
    QuotaManager.consume_quota 10 0 4
        { year := 2025, month := 1, day := 30, hour := 9, minute := 0, second := 0 }
      = Except.ok (true, 4)
    ∧ QuotaManager.run_consume 10
        [(4, { year := 2025, month := 1, day := 30, hour := 9, minute := 0, second := 0 }),
         (5, { year := 2025, month := 1, day := 30, hour := 10, minute := 0, second := 0 }),
         (3, { year := 2025, month := 1, day := 30, hour := 11, minute := 0, second := 0 })]
      ≤ 10 :=
  ⟨(c1_consume_quota_correct 10 0 4
      { year := 2025, month := 1, day := 30, hour := 9, minute := 0, second := 0 }
      []).2.1 (by norm_num) 86400 (by rfl),
   (c1_consume_quota_correct 10 0 0
      { year := 2025, month := 1, day := 30, hour := 9, minute := 0, second := 0 }
      [(4, { year := 2025, month := 1, day := 30, hour := 9, minute := 0, second := 0 }),
       (5, { year := 2025, month := 1, day := 30, hour := 10, minute := 0, second := 0 }),
       (3, { year := 2025, month := 1, day := 30, hour := 11, minute := 0, second := 0 })]).2.2.2
     (by norm_num) (by decide)⟩

/-- C7 counterexample: with the per-second window saturated at the first
check and still saturated at the retry, the claim's conclusion fails — no
rate-limited error is surfaced and the outbound call proceeds (after two
one-second sleeps). -/
theorem c7_counterexample :
    RateLimiter.can_make_request rateLimiterEx saturatedWindow = false
    ∧ CachedYouTubeService.make_api_call 10000 0 1 rateLimiterEx
        saturatedWindow saturatedWindow = ApiCallResult.proceeded 2 :=
  ⟨rfl, rfl⟩

/-- C7 amended: when the quota gate allows the call, `_make_api_call`
always dispatches the outbound call; `wait_if_needed` sleeps 0 times when
the first window check passes, sleeps once when only the retry passes, and
when the window is still saturated after the single retry it sleeps one
more second and the call proceeds anyway — no rate-limited error is ever
surfaced. -/
theorem c7_rate_gate (daily_limit current_used quota_cost : Int)
    (rl : RateLimiter) (w0 w1 : RateWindow) :
    (QuotaManager.can_make_request daily_limit current_used quota_cost = false
        → CachedYouTubeService.make_api_call daily_limit current_used quota_cost rl w0 w1
            = ApiCallResult.quota_error)
    ∧ (QuotaManager.can_make_request daily_limit current_used quota_cost = true
        → CachedYouTubeService.make_api_call daily_limit current_used quota_cost rl w0 w1
            = ApiCallResult.proceeded (rl.wait_if_needed w0 w1))
    ∧ (rl.can_make_request w0 = true → rl.wait_if_needed w0 w1 = 0)
    ∧ (rl.can_make_request w0 = false → rl.can_make_request w1 = true
        → rl.wait_if_needed w0 w1 = 1)
    ∧ (rl.can_make_request w0 = false → rl.can_make_request w1 = false
        → rl.wait_if_needed w0 w1 = 2) := by
  refine ⟨?_, ?_, ?_, ?_, ?_⟩
  · intro h; simp [CachedYouTubeService.make_api_call, h]
  · intro h; simp [CachedYouTubeService.make_api_call, h]
  · intro h; simp [RateLimiter.wait_if_needed, h]
  · intro h0 h1; simp [RateLimiter.wait_if_needed, h0, h1]
  · intro h0 h1; simp [RateLimiter.wait_if_needed, h0, h1]

/-- C7 witness: a saturated window at both checks yields two sleeps and a
dispatched call. -/
theorem c7_witness :
    RateLimiter.wait_if_needed rateLimiterEx saturatedWindow saturatedWindow = 2
    ∧ CachedYouTubeService.make_api_call 10000 0 1 rateLimiterEx
        saturatedWindow saturatedWindow = ApiCallResult.proceeded 2 :=
  ⟨(c7_rate_gate 10000 0 1 rateLimiterEx saturatedWindow saturatedWindow).2.2.2.2
      (by rfl) (by rfl),
   (c7_rate_gate 10000 0 1 rateLimiterEx saturatedWindow saturatedWindow).2.1 (by rfl)⟩

/-- C8 code bug: the expiry computation of `consume_quota` raises
`ValueError` (from `datetime.replace(day=tomorrow_utc.day + 1)`) whenever
the current UTC time is at or past 08:00 on the last day of a month —
here 2025-01-31 09:00:00 UTC — instead of computing the seconds until the
next 08:00 UTC reset; on a non-final day (2025-01-30 09:00:00 UTC) it
returns the expected 23 hours plus the one-hour grace buffer. -/
theorem c8_expiry_month_end :
    QuotaManager.expiry_timeout
        { year := 2025, month := 1, day := 31, hour := 9, minute := 0, second := 0 }
      = Except.error "day is out of range for month"
    ∧ QuotaManager.expiry_timeout
        { year := 2025, month := 1, day := 30, hour := 9, minute := 0, second := 0 }
      = Except.ok 86400 :=
  ⟨rfl, rfl⟩

theorem dictContains_map_set (d : List (String × VideoRec)) (k : String)
    (v : VideoRec) (x : String) :
    dictContains (d.map fun p => if p.1 = k then (k, v) else p) x
      = dictContains d x := by
  induction d with
  | nil => rfl
  | cons p rest ih =>
    by_cases hp : p.1 = k <;> simp [dictContains, hp, ih] <;>
      simp [dictContains] at ih <;> rw [ih]

theorem dictContains_append_single (d : List (String × VideoRec)) (k : String)
    (v : VideoRec) (x : String) :
    dictContains (d ++ [(k, v)]) x = (dictContains d x || decide (k = x)) := by
  simp [dictContains]

theorem dictContains_set (d : List (String × VideoRec)) (k : String)
    (v : VideoRec) (x : String) :
    dictContains (dictSet d k v) x = (dictContains d x || decide (k = x)) := by
  unfold dictSet
  by_cases h : dictContains d k
  · rw [if_pos h, dictContains_map_set]
    by_cases hk : k = x
    · subst hk; simp [h]
    · simp [hk]
  · rw [if_neg h, dictContains_append_single]

theorem dictGet_map_set (d : List (String × VideoRec)) (k : String)
    (v : VideoRec) (h : dictContains d k = true) :
    dictGet (d.map fun p => if p.1 = k then (k, v) else p) k = some v := by
  induction d with
  | nil => simp [dictContains] at h
  | cons p rest ih =>
    by_cases hp : p.1 = k
    · simp [dictGet, hp]
    · have hr : dictContains rest k = true := by
        simpa [dictContains, hp] using h
      simp [dictGet, hp, ih hr]

theorem dictGet_append_not_contains (d : List (String × VideoRec)) (k : String)
    (v : VideoRec) (h : dictContains d k = false) :
    dictGet (d ++ [(k, v)]) k = some v := by
  induction d with
  | nil => simp [dictGet]
  | cons p rest ih =>
    have hp : ¬p.1 = k := by
      intro e; simp [dictContains, e] at h
    have hr : dictContains rest k = false := by
      simpa [dictContains, hp] using h
    simp [dictGet, hp, ih hr]

theorem dictGet_set_self (d : List (String × VideoRec)) (k : String)
    (v : VideoRec) : dictGet (dictSet d k v) k = some v := by
  unfold dictSet
  by_cases h : dictContains d k
  · rw [if_pos h]; exact dictGet_map_set d k v h
  · rw [if_neg h]; exact dictGet_append_not_contains d k v (by simpa using h)

theorem dictGet_map_set_ne (d : List (String × VideoRec)) (k : String)
    (v : VideoRec) (x : String) (h : k ≠ x) :
    dictGet (d.map fun p => if p.1 = k then (k, v) else p) x = dictGet d x := by
  induction d with
  | nil => rfl
  | cons p rest ih =>
    by_cases hp : p.1 = k
    · have hpx : ¬p.1 = x := by rw [hp]; exact h
      simp [dictGet, hp, hpx, h, ih]
    · simp [dictGet, hp, ih]

theorem dictGet_append_single_ne (d : List (String × VideoRec)) (k : String)
    (v : VideoRec) (x : String) (h : k ≠ x) :
    dictGet (d ++ [(k, v)]) x = dictGet d x := by
  induction d with
  | nil => simp [dictGet, h]
  | cons p rest ih => simp [dictGet, ih]

theorem dictGet_set_ne (d : List (String × VideoRec)) (k : String)
    (v : VideoRec) (x : String) (h : k ≠ x) :
    dictGet (dictSet d k v) x = dictGet d x := by
  unfold dictSet
  by_cases hc : dictContains d k
  · rw [if_pos hc]; exact dictGet_map_set_ne d k v x h
  · rw [if_neg hc]; exact dictGet_append_single_ne d k v x h

theorem add_playlist_videos_get (playlist : List VideoRec) :
    ∀ (d : List (String × VideoRec)) (k : String), dictContains d k = true →
      dictGet (add_playlist_videos d playlist) k = dictGet d k := by
  induction playlist with
  | nil => intro d k _; rfl
  | cons v rest ih =>
    intro d k h
    show dictGet (add_playlist_videos
        (if dictContains d v.video_id then d else dictSet d v.video_id v) rest) k
      = dictGet d k
    by_cases hv : dictContains d v.video_id
    · rw [if_pos hv]; exact ih d k h
    · rw [if_neg hv]
      have hne : v.video_id ≠ k := by
        intro e; rw [e] at hv; exact hv h
      have hcont : dictContains (dictSet d v.video_id v) k = true := by
        rw [dictContains_set]; simp [h]
      rw [ih _ k hcont]
      exact dictGet_set_ne d v.video_id v k hne

theorem add_search_videos_contains (search : List VideoRec) :
    ∀ (d : List (String × VideoRec)) (k : String), dictContains d k = true →
      dictContains (add_search_videos d search) k = true := by
  induction search with
  | nil => intro d k h; exact h
  | cons v rest ih =>
    intro d k h
    show dictContains (add_search_videos (dictSet d v.video_id v) rest) k = true
    exact ih _ k (by rw [dictContains_set]; simp [h])

theorem add_search_videos_get (search : List VideoRec) :
    ∀ (d : List (String × VideoRec)) (k : String),
      (∀ v ∈ search, v.video_id ≠ k) →
      dictGet (add_search_videos d search) k = dictGet d k := by
  induction search with
  | nil => intro d k _; rfl
  | cons v rest ih =>
    intro d k hdisj
    show dictGet (add_search_videos (dictSet d v.video_id v) rest) k = dictGet d k
    rw [ih _ k (fun w hw => hdisj w (List.mem_cons_of_mem _ hw))]
    exact dictGet_set_ne d v.video_id v k (hdisj v (List.mem_cons_self _ _))

theorem add_live_broadcasts_live (live : List VideoRec) :
    ∀ (d : List (String × VideoRec)) (k : String),
      dictContains (add_live_broadcasts d live) k = true →
      ((dictGet (add_live_broadcasts d live) k).map (fun v => v.is_live) = some true
        ∨ (dictGet (add_live_broadcasts d live) k = dictGet d k
            ∧ dictContains d k = true)) := by
  induction live with
  | nil => intro d k h; exact Or.inr ⟨rfl, h⟩
  | cons v rest ih =>
    intro d k h
    have h' : dictContains
        (add_live_broadcasts (dictSet d v.video_id { v with is_live := true }) rest) k
        = true := h
    rcases ih _ k h' with hl | ⟨he, hc⟩
    · exact Or.inl hl
    · by_cases hv : v.video_id = k
      · left
        show (dictGet (add_live_broadcasts
            (dictSet d v.video_id { v with is_live := true }) rest) k).map
              (fun v => v.is_live) = some true
        rw [he, hv, dictGet_set_self]
        rfl
      · right
        have hck : dictContains d k = true := by
          rw [dictContains_set] at hc
          simpa [hv] using hc
        refine ⟨?_, hck⟩
        show dictGet (add_live_broadcasts
            (dictSet d v.video_id { v with is_live := true }) rest) k = dictGet d k
        rw [he, dictGet_set_ne d v.video_id _ k hv]

/-- C2 counterexample: the popularity-search merge loop assigns
unconditionally, so a record seeded by the live-broadcast probe (with
`is_live` forced true) is overwritten by a search-path record with the
same id — contradicting the claim that a first-seen record is never
overwritten by a later-merged source. -/
theorem c2_counterexample :
    dictGet (build_working_set [liveSeedRec] [searchRec] []) "a" = some searchRec
    ∧ searchRec ≠ { liveSeedRec with is_live := true }
    ∧ (dictGet (build_working_set [liveSeedRec] [searchRec] []) "a").map
        (fun v => v.is_live) = some false := by
  refine ⟨rfl, ?_, rfl⟩
  intro h
  exact absurd (congrArg VideoRec.is_live h) (by decide)

/-- C2 amended: only the playlist-path merge is first-write-wins — it never
overwrites an existing entry — while the search-path merge overwrites
unconditionally; hence an entry seeded by the live probe (with `is_live`
forced true) survives the merges unchanged exactly when its id does not
occur among the search-path results. -/
theorem c2_first_write_wins :
    (∀ (d : List (String × VideoRec)) (playlist : List VideoRec) (k : String),
        dictContains d k = true →
        dictGet (add_playlist_videos d playlist) k = dictGet d k)
    ∧ (∀ (live search playlist : List VideoRec) (k : String),
        dictContains (add_live_broadcasts [] live) k = true →
        (∀ v ∈ search, v.video_id ≠ k) →
        dictGet (build_working_set live search playlist) k
            = dictGet (add_live_broadcasts [] live) k
        ∧ (dictGet (build_working_set live search playlist) k).map
            (fun v => v.is_live) = some true) := by
  constructor
  · intro d playlist k h; exact add_playlist_videos_get playlist d k h
  · intro live search playlist k hc hdisj
    have hc2 : dictContains (add_search_videos (add_live_broadcasts [] live) search) k
        = true := add_search_videos_contains search _ k hc
    have h1 : dictGet (build_working_set live search playlist) k
        = dictGet (add_search_videos (add_live_broadcasts [] live) search) k :=
      add_playlist_videos_get playlist _ k hc2
    have h2 : dictGet (add_search_videos (add_live_broadcasts [] live) search) k
        = dictGet (add_live_broadcasts [] live) k :=
      add_search_videos_get search _ k hdisj
    refine ⟨h1.trans h2, ?_⟩
    rw [h1, h2]
    rcases add_live_broadcasts_live live [] k hc with hl | ⟨_, hfalse⟩
    · exact hl
    · simp [dictContains] at hfalse

/-- C2 witness: a live-probe seed for id `a` survives a playlist merge
carrying a different id, with its forced `is_live` flag intact. -/
theorem c2_witness :
    (dictGet (build_working_set [liveSeedRec] []
        [{ video_id := "b", is_live := false, tag := 3 }]) "a").map
      (fun v => v.is_live) = some true :=
  (c2_first_write_wins.2 [liveSeedRec] []
      [{ video_id := "b", is_live := false, tag := 3 }] "a"
      (by decide) (by decide)).2

/-- C3: the `live_videos` list of a fetch result contains at most one
item, and when the live-candidate set is non-empty that item is a maximum
of the candidates under the lexicographic key
`(liveViewersAsInt, viewCountAsInt)`, where `None` and non-digit strings
coerce to 0. -/
theorem c3_live_selection (live_videos : List LiveVideo) :
    (selectTopLive live_videos).length ≤ 1
    ∧ (live_videos ≠ [] → ∃ top, selectTopLive live_videos = [top]
        ∧ top ∈ live_videos
        ∧ ∀ c ∈ live_videos, lexLe (get_sort_key c) (get_sort_key top)) := by
  haveI : IsTotal LiveVideo liveGe := ⟨liveGe_total⟩
  haveI : IsTrans LiveVideo liveGe := ⟨liveGe_trans⟩
  constructor
  · unfold selectTopLive
    cases List.insertionSort liveGe live_videos <;> simp
  · intro hne
    cases h : List.insertionSort liveGe live_videos with
    | nil =>
      exfalso
      have hp := List.perm_insertionSort liveGe live_videos
      rw [h] at hp
      exact hne hp.symm.eq_nil
    | cons top rest =>
      refine ⟨top, by simp [selectTopLive, h], ?_, ?_⟩
      · have hm : top ∈ List.insertionSort liveGe live_videos := by
          rw [h]; exact List.mem_cons_self _ _
        exact (List.mem_insertionSort liveGe).1 hm
      · intro c hc
        have hsorted := List.sorted_insertionSort liveGe live_videos
        rw [h] at hsorted
        have hc2 : c ∈ List.insertionSort liveGe live_videos :=
          (List.mem_insertionSort liveGe).2 hc
        rw [h] at hc2
        rcases List.mem_cons.mp hc2 with rfl | hcr
        · exact lexLe_refl _
        · exact List.rel_of_sorted_cons hsorted c hcr

/-- C3 witness: among the candidates (viewers=100, views=5000) and
(viewers=None, views=9000), the selection keeps exactly the one with
viewers=100 — concurrent viewers outrank raw views. -/
theorem c3_witness :
    (∃ top, selectTopLive [liveExampleA, liveExampleB] = [top]
        ∧ top ∈ [liveExampleA, liveExampleB]
        ∧ ∀ c ∈ [liveExampleA, liveExampleB],
            lexLe (get_sort_key c) (get_sort_key top))
    ∧ selectTopLive [liveExampleA, liveExampleB] = [liveExampleA] :=
  ⟨(c3_live_selection [liveExampleA, liveExampleB]).2 (by decide), by decide⟩

/-- C5 counterexample: when the working set already holds enough regular
videos (here a low-view live-probe seed first, then a high-view video)
and the playlist path yields nothing, lines 967-968 slice the unsorted
dict-order partition of lines 721-722 — the resulting `videos` list is
not sorted descending, refuting "in every fetch result the lists are
sorted". -/
theorem c5_counterexample :
    (fetch_rank_assembly
        [{ view_count := 5, is_short := false, tag := 1 },
         { view_count := 100, is_short := false, tag := 2 }] none 2 5).1
      = [{ view_count := 5, is_short := false, tag := 1 },
         { view_count := 100, is_short := false, tag := 2 }]
    ∧ ¬List.Chain' (fun a b => b.view_count ≤ a.view_count)
        (fetch_rank_assembly
          [{ view_count := 5, is_short := false, tag := 1 },
           { view_count := 100, is_short := false, tag := 2 }] none 2 5).1 := by
  refine ⟨rfl, ?_⟩
  rw [show (fetch_rank_assembly
      [{ view_count := 5, is_short := false, tag := 1 },
       { view_count := 100, is_short := false, tag := 2 }] none 2 5).1
    = [({ view_count := 5, is_short := false, tag := 1 } : RankedVideo),
       { view_count := 100, is_short := false, tag := 2 }] from rfl]
  simp only [List.chain'_cons, List.chain'_singleton, and_true]
  omega

/-- C5 amended: the `videos` and `shorts` lists are sorted in descending
view-count order whenever the playlist-fallback branch runs and reaches
its re-sort (lines 766-770); when the playlist path yields nothing the
lists are the unsorted dict-insertion-order slices of lines 721-722 and
967-968; and the `rank_videos_by_views` sort itself is stable descending:
items with equal view counts keep their original relative order. -/
theorem c5_sorted_on_playlist_path (initial merged : List RankedVideo)
    (max_videos max_shorts : Nat) (l : List RankedVideo) (k : Int) :
    ((initial.isEmpty
        || (decide ((initial.filter fun v => !v.is_short).length < max_videos)
            || decide ((initial.filter fun v => v.is_short).length < max_shorts)))
          = true →
      List.Chain' (fun a b => b.view_count ≤ a.view_count)
          (fetch_rank_assembly initial (some merged) max_videos max_shorts).1
      ∧ List.Chain' (fun a b => b.view_count ≤ a.view_count)
          (fetch_rank_assembly initial (some merged) max_videos max_shorts).2)
    ∧ fetch_rank_assembly initial none max_videos max_shorts
        = ((initial.filter fun v => !v.is_short).take max_videos,
           (initial.filter fun v => v.is_short).take max_shorts)
    ∧ (YouTubeService.rank_videos_by_views l).filter
          (fun v => decide (v.view_count = k))
        = l.filter (fun v => decide (v.view_count = k)) := by
  haveI : IsTotal RankedVideo viewsGe := ⟨viewsGe_total⟩
  haveI : IsTrans RankedVideo viewsGe := ⟨viewsGe_trans⟩
  refine ⟨?_, ?_, ?_⟩
  · intro hcond
    unfold fetch_rank_assembly
    rw [if_pos hcond]
    constructor
    · have hs : List.Pairwise viewsGe
          (List.insertionSort viewsGe (merged.filter fun v => !v.is_short)) :=
        List.sorted_insertionSort viewsGe _
      exact List.Pairwise.chain'
        (List.Pairwise.sublist (List.take_sublist _ _) hs)
    · have hs : List.Pairwise viewsGe
          (List.insertionSort viewsGe (merged.filter fun v => v.is_short)) :=
        List.sorted_insertionSort viewsGe _
      exact List.Pairwise.chain'
        (List.Pairwise.sublist (List.take_sublist _ _) hs)
  · unfold fetch_rank_assembly
    by_cases hcond : (initial.isEmpty
        || (decide ((initial.filter fun v => !v.is_short).length < max_videos)
            || decide ((initial.filter fun v => v.is_short).length < max_shorts)))
          = true
    · rw [if_pos hcond]
    · rw [if_neg hcond]
  · unfold YouTubeService.rank_videos_by_views
    refine filter_insertionSort viewsGe _ ?_ l
    intro a b hpa hr
    simp only [decide_eq_true_eq] at hpa
    simp only [decide_eq_false_iff_not]
    unfold viewsGe at hr
    omega

/-- C5 witness: with an empty working set (search disabled) and a merged
playlist yield of views 5 and 100, the assembled `videos` list is the
sorted [100, 5]. -/
theorem c5_witness :
    (List.Chain' (fun a b => b.view_count ≤ a.view_count)
        (fetch_rank_assembly []
          (some [{ view_count := 5, is_short := false, tag := 1 },
                 { view_count := 100, is_short := false, tag := 2 }]) 5 5).1
      ∧ List.Chain' (fun a b => b.view_count ≤ a.view_count)
          (fetch_rank_assembly []
            (some [{ view_count := 5, is_short := false, tag := 1 },
                   { view_count := 100, is_short := false, tag := 2 }]) 5 5).2)
    ∧ (fetch_rank_assembly []
          (some [{ view_count := 5, is_short := false, tag := 1 },
                 { view_count := 100, is_short := false, tag := 2 }]) 5 5).1
        = [{ view_count := 100, is_short := false, tag := 2 },
           { view_count := 5, is_short := false, tag := 1 }] :=
  ⟨(c5_sorted_on_playlist_path []
      [{ view_count := 5, is_short := false, tag := 1 },
       { view_count := 100, is_short := false, tag := 2 }] 5 5 [] 0).1 (by decide),
   by decide⟩

/-- C4: with `h` the hours since publish, `is_trending` is true iff
`0 ≤ h ≤ 3`; when trending the score is `views × 10` for `h < 0.1` and
`views / h` otherwise; when not trending the score is 0. -/
theorem c4_trending (view_count : Int) (now published : ℚ) :
    ((YouTubeService.trending_fields view_count (hours_since_publish now published)).2 = true
        ↔ 0 ≤ hours_since_publish now published ∧ hours_since_publish now published ≤ 3)
    ∧ (0 ≤ hours_since_publish now published → hours_since_publish now published ≤ 3
        → (YouTubeService.trending_fields view_count (hours_since_publish now published)).1
            = if hours_since_publish now published < 1 / 10 then (view_count : ℚ) * 10
              else (view_count : ℚ) / hours_since_publish now published)
    ∧ (¬(0 ≤ hours_since_publish now published ∧ hours_since_publish now published ≤ 3)
        → (YouTubeService.trending_fields view_count (hours_since_publish now published)).1
            = 0) := by
  set h : ℚ := hours_since_publish now published with hdef
  refine ⟨?_, ?_, ?_⟩
  · unfold YouTubeService.trending_fields
    by_cases hc : h ≤ 3 ∧ 0 ≤ h
    · simp only [if_pos hc]
      simpa using ⟨hc.2, hc.1⟩
    · simp only [if_neg hc]
      simp only [Bool.false_eq_true, false_iff]
      exact fun hx => hc ⟨hx.2, hx.1⟩
  · intro h0 h3
    unfold YouTubeService.trending_fields
    rw [if_pos ⟨h3, h0⟩]
    by_cases hlt : h < 1 / 10
    · rw [one_div] at hlt
      simp [hlt]
    · have hpos : 0 < h := lt_of_lt_of_le (by norm_num) (le_of_not_lt hlt)
      simp [hlt, hpos]
  · intro hn
    have hc : ¬(h ≤ 3 ∧ 0 ≤ h) := fun hx => hn ⟨hx.2, hx.1⟩
    unfold YouTubeService.trending_fields
    rw [if_neg hc]

/-- C4 witness: an item published 2 hours ago with 1000 views is trending
with score 500; one published 0.05 hours (180 s) ago with 1000 views gets
the boosted score 10000; one published 4 hours ago is not trending and
scores 0. -/
theorem c4_witness :
    YouTubeService.trending_fields 1000 (hours_since_publish 7200 0) = (500, true)
    ∧ YouTubeService.trending_fields 1000 (hours_since_publish 180 0) = (10000, true)
    ∧ YouTubeService.trending_fields 1000 (hours_since_publish 14400 0) = (0, false) := by
  have e2 : hours_since_publish 7200 0 = 2 := by norm_num [hours_since_publish]
  have e005 : hours_since_publish 180 0 = 1 / 20 := by norm_num [hours_since_publish]
  have e4 : hours_since_publish 14400 0 = 4 := by norm_num [hours_since_publish]
  refine ⟨?_, ?_, ?_⟩
  · have hs := (c4_trending 1000 7200 0).2.1 (by rw [e2]; norm_num) (by rw [e2]; norm_num)
    have ht := (c4_trending 1000 7200 0).1.mpr (by rw [e2]; constructor <;> norm_num)
    rw [e2] at hs ht
    rw [e2, Prod.ext_iff]
    refine ⟨?_, by rw [ht]⟩
    rw [hs]
    norm_num
  · have hs := (c4_trending 1000 180 0).2.1 (by rw [e005]; norm_num) (by rw [e005]; norm_num)
    have ht := (c4_trending 1000 180 0).1.mpr (by rw [e005]; constructor <;> norm_num)
    rw [e005] at hs ht
    rw [e005, Prod.ext_iff]
    refine ⟨?_, by rw [ht]⟩
    rw [hs]
    norm_num
  · have hs := (c4_trending 1000 14400 0).2.2 (by rw [e4]; norm_num)
    have ht : (YouTubeService.trending_fields 1000 (hours_since_publish 14400 0)).2 = false := by
      refine Bool.eq_false_iff.mpr (fun hq => ?_)
      have := (c4_trending 1000 14400 0).1.mp hq
      rw [e4] at this
      norm_num at this
    rw [e4] at hs ht
    rw [e4, Prod.ext_iff]
    exact ⟨by rw [hs], by rw [ht]⟩

theorem takeDigits_digits_append (ds : List Char) (c : Char) (rest : List Char)
    (hds : ∀ x ∈ ds, x.isDigit) (hc : c.isDigit = false) :
    takeDigits (ds ++ c :: rest) = (ds, c :: rest) := by
  induction ds with
  | nil => simp [takeDigits, hc]
  | cons d dsx ih =>
    have hd : d.isDigit = true := hds d (List.mem_cons_self _ _)
    have ih2 := ih fun x hx => hds x (List.mem_cons_of_mem _ hx)
    simp [takeDigits, hd, ih2]

theorem matchNumGroup_hit (u : Char) (ds tail : List Char) (hne : ds ≠ [])
    (hds : ∀ x ∈ ds, x.isDigit) (hu : u.isDigit = false) :
    matchNumGroup u (ds ++ u :: tail) = (some (digitsToNat ds), tail) := by
  obtain ⟨d, ds2, rfl⟩ := List.exists_cons_of_ne_nil hne
  unfold matchNumGroup
  rw [takeDigits_digits_append _ u tail hds hu]
  simp

theorem matchNumGroup_miss (u x : Char) (ds tail : List Char)
    (hds : ∀ c ∈ ds, c.isDigit) (hx : x.isDigit = false) (hxu : x ≠ u) :
    matchNumGroup u (ds ++ x :: tail) = (none, ds ++ x :: tail) := by
  unfold matchNumGroup
  rw [takeDigits_digits_append ds x tail hds hx]
  cases ds with
  | nil => simp
  | cons d ds2 => simp [hxu]

theorem matchNumGroup_nil (u : Char) : matchNumGroup u [] = (none, []) := rfl

theorem is_short_video_cons (c1 c2 : Char) (rest : List Char) :
    YouTubeService.is_short_video { data := c1 :: c2 :: rest }
      = if c1 = 'P' ∧ c2 = 'T' then
          decide ((matchNumGroup 'H' rest).1.getD 0 * 3600
            + (matchNumGroup 'M' (matchNumGroup 'H' rest).2).1.getD 0 * 60
            + (matchNumGroup 'S'
                (matchNumGroup 'M' (matchNumGroup 'H' rest).2).2).1.getD 0 ≤ 60)
        else false := by
  have hne : ({ data := c1 :: c2 :: rest } : String) ≠ "" := by
    intro h
    simpa using congrArg String.data h
  unfold YouTubeService.is_short_video
  rw [if_neg hne]

/-- C6: a well-formed `PT…H…M…S` duration string classifies as a Short
exactly when its total duration in seconds is at most 60 (the boundary is
inclusive). -/
theorem c6_short_iff_le_60 (H M S : Option (List Char))
    (hH : goodDigits H) (hM : goodDigits M) (hS : goodDigits S) :
    YouTubeService.is_short_video (mkDuration H M S)
      = decide (groupVal H * 3600 + groupVal M * 60 + groupVal S ≤ 60) := by
  rw [show mkDuration H M S = { data := 'P' :: 'T' ::
      (renderGroup H 'H' ++ renderGroup M 'M' ++ renderGroup S 'S') } from rfl]
  rw [is_short_video_cons]
  rw [if_pos ⟨rfl, rfl⟩]
  rcases H with _ | dsH <;> rcases M with _ | dsM <;> rcases S with _ | dsS
  · simp [renderGroup, groupVal, matchNumGroup_nil]
  · obtain ⟨hSne, hSd⟩ := hS dsS rfl
    simp only [renderGroup, groupVal, List.nil_append, List.append_assoc,
      List.cons_append, List.singleton_append, List.append_nil]
    rw [matchNumGroup_miss 'H' 'S' dsS [] hSd (by decide) (by decide)]
    rw [matchNumGroup_miss 'M' 'S' dsS [] hSd (by decide) (by decide)]
    rw [matchNumGroup_hit 'S' dsS [] hSne hSd (by decide)]
    simp
  · obtain ⟨hMne, hMd⟩ := hM dsM rfl
    simp only [renderGroup, groupVal, List.nil_append, List.append_assoc,
      List.cons_append, List.singleton_append, List.append_nil]
    rw [matchNumGroup_miss 'H' 'M' dsM [] hMd (by decide) (by decide)]
    rw [matchNumGroup_hit 'M' dsM [] hMne hMd (by decide)]
    simp [matchNumGroup_nil]
  · obtain ⟨hMne, hMd⟩ := hM dsM rfl
    obtain ⟨hSne, hSd⟩ := hS dsS rfl
    simp only [renderGroup, groupVal, List.nil_append, List.append_assoc,
      List.cons_append, List.singleton_append, List.append_nil]
    rw [matchNumGroup_miss 'H' 'M' dsM (dsS ++ 'S' :: []) hMd (by decide) (by decide)]
    rw [matchNumGroup_hit 'M' dsM (dsS ++ 'S' :: []) hMne hMd (by decide)]
    dsimp only
    rw [matchNumGroup_hit 'S' dsS [] hSne hSd (by decide)]
    simp
  · obtain ⟨hHne, hHd⟩ := hH dsH rfl
    simp only [renderGroup, groupVal, List.nil_append, List.append_assoc,
      List.cons_append, List.singleton_append, List.append_nil]
    rw [matchNumGroup_hit 'H' dsH [] hHne hHd (by decide)]
    simp [matchNumGroup_nil]
  · obtain ⟨hHne, hHd⟩ := hH dsH rfl
    obtain ⟨hSne, hSd⟩ := hS dsS rfl
    simp only [renderGroup, groupVal, List.nil_append, List.append_assoc,
      List.cons_append, List.singleton_append, List.append_nil]
    rw [matchNumGroup_hit 'H' dsH (dsS ++ 'S' :: []) hHne hHd (by decide)]
    dsimp only
    rw [matchNumGroup_miss 'M' 'S' dsS [] hSd (by decide) (by decide)]
    rw [matchNumGroup_hit 'S' dsS [] hSne hSd (by decide)]
    simp
  · obtain ⟨hHne, hHd⟩ := hH dsH rfl
    obtain ⟨hMne, hMd⟩ := hM dsM rfl
    simp only [renderGroup, groupVal, List.nil_append, List.append_assoc,
      List.cons_append, List.singleton_append, List.append_nil]
    rw [matchNumGroup_hit 'H' dsH (dsM ++ 'M' :: []) hHne hHd (by decide)]
    dsimp only
    rw [matchNumGroup_hit 'M' dsM [] hMne hMd (by decide)]
    simp [matchNumGroup_nil]
  · obtain ⟨hHne, hHd⟩ := hH dsH rfl
    obtain ⟨hMne, hMd⟩ := hM dsM rfl
    obtain ⟨hSne, hSd⟩ := hS dsS rfl
    simp only [renderGroup, groupVal, List.nil_append, List.append_assoc,
      List.cons_append, List.singleton_append, List.append_nil]
    rw [matchNumGroup_hit 'H' dsH (dsM ++ 'M' :: (dsS ++ 'S' :: []))
      hHne hHd (by decide)]
    dsimp only
    rw [matchNumGroup_hit 'M' dsM (dsS ++ 'S' :: []) hMne hMd (by decide)]
    dsimp only
    rw [matchNumGroup_hit 'S' dsS [] hSne hSd (by decide)]
    simp

/-- C6 witness: "PT1M5S" (65 s) is not a Short, "PT59S" is, and "PT1M0S"
(exactly 60 s) is — the boundary is inclusive. -/
theorem c6_witness :
    YouTubeService.is_short_video "PT1M5S" = false
    ∧ YouTubeService.is_short_video "PT59S" = true
    ∧ YouTubeService.is_short_video "PT1M0S" = true := by
  have gd1 : goodDigits (some ['1']) := by
    intro ds h; cases h; exact ⟨by decide, by decide⟩
  have gd5 : goodDigits (some ['5']) := by
    intro ds h; cases h; exact ⟨by decide, by decide⟩
  have gd59 : goodDigits (some ['5', '9']) := by
    intro ds h; cases h; exact ⟨by decide, by decide⟩
  have gd0 : goodDigits (some ['0']) := by
    intro ds h; cases h; exact ⟨by decide, by decide⟩
  have gdn : goodDigits Option.none := by
    intro ds h; cases h
  refine ⟨?_, ?_, ?_⟩
  · have h := c6_short_iff_le_60 Option.none (some ['1']) (some ['5']) gdn gd1 gd5
    rw [show mkDuration Option.none (some ['1']) (some ['5']) = "PT1M5S" from by decide] at h
    rw [h]; decide
  · have h := c6_short_iff_le_60 Option.none Option.none (some ['5', '9']) gdn gdn gd59
    rw [show mkDuration Option.none Option.none (some ['5', '9']) = "PT59S" from by decide] at h
    rw [h]; decide
  · have h := c6_short_iff_le_60 Option.none (some ['1']) (some ['0']) gdn gd1 gd0
    rw [show mkDuration Option.none (some ['1']) (some ['0']) = "PT1M0S" from by decide] at h
    rw [h]; decide

/-- C10 counterexample: "PTfoo" neither is empty nor parses as an
ISO-8601 duration with any components, yet `_is_short_video` returns
True for it (all regex groups are empty, the total is 0 seconds), so a
malformed duration is not always classified as a regular video. -/
theorem c10_counterexample : YouTubeService.is_short_video "PTfoo" = true := by
  decide

/-- C10 amended: an empty duration, and any duration that does not begin
with "PT", classifies as a regular video (never a Short); but a malformed
duration that does begin with "PT" matches the regex with all groups
empty, totals 0 seconds, and is classified as a Short. -/
theorem c10_malformed_duration :
    YouTubeService.is_short_video "" = false
    ∧ (∀ s : String, startsWithPT s = false → YouTubeService.is_short_video s = false)
    ∧ YouTubeService.is_short_video "PTfoo" = true := by
  refine ⟨by decide, ?_, by decide⟩
  intro s hpt
  obtain ⟨l⟩ := s
  by_cases hs : ({ data := l } : String) = ""
  · rw [hs]; decide
  · unfold YouTubeService.is_short_video
    rw [if_neg hs]
    match l, hpt with
    | [], _ => rfl
    | [c1], _ => rfl
    | c1 :: c2 :: rest, hpt => 
      have hcc : ¬(c1 = 'P' ∧ c2 = 'T') := by
        unfold startsWithPT at hpt
        simpa using hpt
      simp only [if_neg hcc]

/-- C10 witness: "5 minutes" does not start with "PT" and is classified
as a regular video. -/
theorem c10_witness :
    startsWithPT "5 minutes" = false
    ∧ YouTubeService.is_short_video "5 minutes" = false :=
  ⟨by decide, c10_malformed_duration.2.1 "5 minutes" (by decide)⟩

theorem post_foldl (fetch : String → Except String FetchPayload)
    (hok : ∀ u d, fetch u = Except.ok d → d.err = none) :
    ∀ (urls : List String) (res : List FetchPayload) (errs : List ErrorEntry),
      urls.foldl (processChannel fetch) (res, errs)
        = (res ++ urls.filterMap (resultOf fetch),
           errs ++ urls.filterMap (errEntryOf fetch)) := by
  intro urls
  induction urls with
  | nil => intro res errs; simp
  | cons u rest ih =>
    intro res errs
    rw [List.foldl_cons, List.filterMap_cons, List.filterMap_cons]
    cases hf : fetch (pyStrip u) with
    | ok d =>
      have hd := hok _ _ hf
      have hstep : processChannel fetch (res, errs) u = (res ++ [d], errs) := by
        simp only [processChannel, hf, hd]
      rw [hstep, ih]
      simp [resultOf, errEntryOf, hf]
    | error e =>
      have hstep : processChannel fetch (res, errs) u
          = (res, errs ++ [ErrorEntry.mk u e (containsQuota e)]) := by
        simp only [processChannel, hf]
      rw [hstep, ih]
      simp [resultOf, errEntryOf, hf]

theorem result_err_length (fetch : String → Except String FetchPayload) :
    ∀ urls : List String,
      (urls.filterMap (resultOf fetch)).length
        + (urls.filterMap (errEntryOf fetch)).length = urls.length := by
  intro urls
  induction urls with
  | nil => rfl
  | cons u rest ih =>
    rw [List.filterMap_cons, List.filterMap_cons]
    cases hf : fetch (pyStrip u) <;> simp [resultOf, errEntryOf, hf] <;> omega

/-- C9: for a batch of 1–10 channel references, where a reference either
fails (its fetch raises) or succeeds with an error-free payload, the
response contains one FetchResult per successful reference and one error
entry per failed reference, `total_channels_processed` is the number of
results, `total_channels_failed` is the number of errors, and the two
counts sum to the batch size. -/
theorem c9_batch_isolation (fetch : String → Except String FetchPayload)
    (channel_urls : List String) (hne : channel_urls ≠ [])
    (hlen : channel_urls.length ≤ 10)
    (hok : ∀ u d, fetch u = Except.ok d → d.err = none) :
    YouTubeAnalyzerAPIView.post fetch channel_urls
      = PostResponse.ok (channel_urls.filterMap (resultOf fetch))
          (channel_urls.filterMap (errEntryOf fetch))
          (channel_urls.filterMap (resultOf fetch)).length
          (channel_urls.filterMap (errEntryOf fetch)).length
    ∧ (channel_urls.filterMap (resultOf fetch)).length
        + (channel_urls.filterMap (errEntryOf fetch)).length
          = channel_urls.length := by
  refine ⟨?_, result_err_length fetch channel_urls⟩
  unfold YouTubeAnalyzerAPIView.post
  rw [if_neg (by simpa [List.isEmpty_iff] using hne), if_neg (by omega)]
  rw [post_foldl fetch hok channel_urls [] []]
  simp

/-- C9 witness: a batch of 3 references where exactly `chB` fails to
resolve yields 2 FetchResults, exactly 1 error entry, and counts 2 / 1. -/
theorem c9_witness :
    YouTubeAnalyzerAPIView.post fetchExample ["chA", "chB", "chC"]
      = PostResponse.ok
          [{ err := none, tag := 7 }, { err := none, tag := 7 }]
          [{ channel_url := "chB",
             error := "Could not extract channel ID from URL: chB",
             quota_exceeded := false }]
          2 1 := by
  have hok : ∀ u d, fetchExample u = Except.ok d → d.err = none := by
    intro u d hd
    unfold fetchExample at hd
    by_cases hu : u = "chB"
    · rw [if_pos hu] at hd; cases hd
    · rw [if_neg hu] at hd; cases hd; rfl
  have h := c9_batch_isolation fetchExample ["chA", "chB", "chC"]
      (by decide) (by decide) hok
  rw [h.1]
  decide
